import Mathlib

/-!
# Verification of the unposted-audio-journal client core

A shallow embedding of `assets/js/app.js` (the canonical UI variant): the
recording session state machine, the timer computation, payload validation,
the journal store operations (append, delete-all, export), and topic
resolution.  Timestamps are modelled as `Int` milliseconds (JS `Date.now()`
values are exact integers well below 2^53, so `Int` arithmetic is a faithful
embedding of the `Number` arithmetic the code performs on them).
-/

/-- The named views of the UI (`views` object, app.js lines 3-9); `showView`
activates exactly one. -/
inductive View where
  | landing
  | recording
  | processing
  | insights
  | settings
deriving DecidableEq, Repr

/-- A raw audio fragment delivered by a `dataavailable` event (app.js line
97-99).  Its payload is opaque to the client, so it is modelled as a tag. -/
abbrev Chunk := Nat

/-- The client's module-level mutable state (app.js lines 34-44), together
with the active view and a call counter for the Processing Client
(`processAudio` invocations), which the code itself does not store but which
is the observable the spec's "call count" property speaks about.
`hasRecorder` models whether `mediaRecorder` has been assigned. -/
structure AppState where
  view : View
  isRecording : Bool
  isPaused : Bool
  isCancelled : Bool
  hasRecorder : Bool
  startTime : Int
  pausedTime : Int
  audioChunks : List Chunk
  processCalls : Nat
deriving DecidableEq, Repr

/-- The state at page load: no recorder, all flags false, empty chunk list
(app.js lines 34-44). -/
def initState : AppState :=
  { view := View.landing, isRecording := false, isPaused := false,
    isCancelled := false, hasRecorder := false, startTime := 0,
    pausedTime := 0, audioChunks := [], processCalls := 0 }

/-- `startRecording` (app.js lines 91-130).  `micOk` models whether
`getUserMedia` resolves; on rejection the catch block only alerts, leaving
the state unchanged.  On success the code creates a recorder, resets
`audioChunks`, sets the flags, captures `startTime = Date.now()`, zeroes
`pausedTime` and shows the recording view. -/
def startRecording (micOk : Bool) (now : Int) (s : AppState) : AppState :=
  if micOk then
    { s with hasRecorder := true, audioChunks := [], isRecording := true,
             isPaused := false, isCancelled := false, startTime := now,
             pausedTime := 0, view := View.recording }
  else s

/-- A `dataavailable` event appending one chunk (app.js lines 97-99). -/
def onDataAvailable (c : Chunk) (s : AppState) : AppState :=
  { s with audioChunks := s.audioChunks ++ [c] }

/-- `togglePause` (app.js lines 132-147): no-op unless recording with a
recorder; resumes when paused (shifting `startTime` forward by the pause
duration `pausedTime - startTime` relative to `Date.now()`), pauses
otherwise (capturing `pausedTime = Date.now()`). -/
def togglePause (now : Int) (s : AppState) : AppState :=
  if !s.isRecording || !s.hasRecorder then s
  else if s.isPaused then
    { s with isPaused := false, startTime := now - (s.pausedTime - s.startTime) }
  else
    { s with isPaused := true, pausedTime := now }

/-- The pause branch of `togglePause` (app.js lines 141-146), taken exactly
when `togglePause` performs a pause: the session is recording, a recorder
exists, and the session is not already paused.  In every other state this
operation does nothing.  (The spec's `resume()` is the other branch; the
source multiplexes both onto one button.) -/
def pauseAction (now : Int) (s : AppState) : AppState :=
  if s.isRecording && s.hasRecorder && !s.isPaused then
    { s with isPaused := true, pausedTime := now }
  else s

/-- The resume branch of `togglePause` (app.js lines 135-140), taken exactly
when `togglePause` performs a resume. -/
def resumeAction (now : Int) (s : AppState) : AppState :=
  if s.isRecording && s.hasRecorder && s.isPaused then
    { s with isPaused := false, startTime := now - (s.pausedTime - s.startTime) }
  else s

/-- `togglePause` is exactly the dispatch between the resume branch and the
pause branch. -/
theorem togglePause_eq_branches (now : Int) (s : AppState) :
    togglePause now s = if s.isPaused then resumeAction now s else pauseAction now s := by
  unfold togglePause pauseAction resumeAction
  cases h1 : s.isRecording <;> cases h2 : s.hasRecorder <;> cases h3 : s.isPaused <;> simp

/-- The `stop` event listener on the media recorder (app.js lines 101-108):
`processAudio` runs only when the session was not cancelled.  Invoking the
Processing Client is recorded by bumping `processCalls`. -/
def stopListener (s : AppState) : AppState :=
  if !s.isCancelled then { s with processCalls := s.processCalls + 1 } else s

/-- `stopRecording` (app.js lines 149-157): guards on an active session,
clears the cancel flag, stops the recorder (which later fires the stop
listener), clears the timer, drops `isRecording` and shows the processing
view.  The asynchronous stop listener is modelled as running after the
handler body. -/
def stopRecording (s : AppState) : AppState :=
  if !s.isRecording || !s.hasRecorder then s
  else
    stopListener { s with isCancelled := false, isRecording := false,
                          view := View.processing }

/-- `cancelRecording` (app.js lines 159-170): guards on an active session,
sets the cancel flag, stops the recorder (the stop listener then sees
`isCancelled` and skips `processAudio`), drops `isRecording`, releases the
tracks and shows the landing view. -/
def cancelRecording (s : AppState) : AppState :=
  if !s.isRecording || !s.hasRecorder then s
  else
    stopListener { s with isCancelled := true, isRecording := false,
                          view := View.landing }

/-- The elapsed-milliseconds computation inside `updateTimer` (app.js lines
181-193): nothing is displayed unless recording; while paused the value is
`pausedTime - startTime`, otherwise `Date.now() - startTime`. -/
def updateTimerElapsed (now : Int) (s : AppState) : Option Int :=
  if !s.isRecording then none
  else some (if s.isPaused then s.pausedTime - s.startTime else now - s.startTime)

/-- The session states named by the spec's state machine (§4.1). -/
inductive SpecState where
  | Idle
  | Recording
  | Paused
deriving DecidableEq, Repr

/-- Projection of the code's boolean flags onto the spec's state names:
`Idle` when not recording (this also covers the transient `Stopping`, since
`stopRecording` clears `isRecording` synchronously), otherwise `Paused` or
`Recording` according to `isPaused`. -/
def codeState (s : AppState) : SpecState :=
  if !s.isRecording then SpecState.Idle
  else if s.isPaused then SpecState.Paused
  else SpecState.Recording

/-- Modelled from the spec (§4.1): the spec-side session record with
`startedAt`, `pausedAt` and `accumulatedPauseOffset`, used only to state the
refinement in claim C1.  The code itself keeps no pause offset; it shifts
`startTime` instead. -/
structure SpecSession where
  state : SpecState
  startedAt : Int
  pausedAt : Int
  accumulatedPauseOffset : Int
deriving DecidableEq, Repr

/-- Modelled from the spec (§4.1 `start()`): captures `startedAt = now`,
zeroes the pause offset, enters `Recording`. -/
def SpecSession.start (now : Int) : SpecSession :=
  { state := SpecState.Recording, startedAt := now, pausedAt := 0,
    accumulatedPauseOffset := 0 }

/-- Modelled from the spec (§4.1 `pause()`): from `Recording`, records
`pausedAt = now` and enters `Paused`; a no-op elsewhere. -/
def SpecSession.pause (now : Int) (ss : SpecSession) : SpecSession :=
  if ss.state = SpecState.Recording then
    { ss with state := SpecState.Paused, pausedAt := now }
  else ss

/-- Modelled from the spec (§4.1 `resume()`): from `Paused`, adds
`now - pausedAt` to `accumulatedPauseOffset` and re-enters `Recording`;
a no-op elsewhere. -/
def SpecSession.resume (now : Int) (ss : SpecSession) : SpecSession :=
  if ss.state = SpecState.Paused then
    { ss with state := SpecState.Recording,
              accumulatedPauseOffset := ss.accumulatedPauseOffset + (now - ss.pausedAt) }
  else ss

/-- Modelled from the spec (§4.1 elapsed-time formula): while `Recording`,
`now - startedAt - accumulatedPauseOffset`; while `Paused`,
`pausedAt - startedAt - accumulatedPauseOffset`; undefined in `Idle`. -/
def specElapsed (now : Int) (ss : SpecSession) : Option Int :=
  match ss.state with
  | SpecState.Recording => some (now - ss.startedAt - ss.accumulatedPauseOffset)
  | SpecState.Paused => some (ss.pausedAt - ss.startedAt - ss.accumulatedPauseOffset)
  | SpecState.Idle => none

/-- One press of the pause button on the spec side: a resume when paused, a
pause otherwise, mirroring the code's single toggle. -/
def specToggle (now : Int) (ss : SpecSession) : SpecSession :=
  if ss.state = SpecState.Paused then ss.resume now else ss.pause now

/-- Run a sequence of pause-button presses at the given times on the code
state. -/
def runToggles (times : List Int) (s : AppState) : AppState :=
  times.foldl (fun acc t => togglePause t acc) s

/-- Run the same sequence of pause-button presses on the spec session. -/
def runSpecToggles (times : List Int) (ss : SpecSession) : SpecSession :=
  times.foldl (fun acc t => specToggle t acc) ss

/-- The simulation relation between the code state and the spec session
during an active session: the code's shifted `startTime` always equals
`startedAt + accumulatedPauseOffset`, and while paused `pausedTime` holds
`pausedAt`. -/
def TimerInv (s : AppState) (ss : SpecSession) : Prop :=
  s.isRecording = true ∧ s.hasRecorder = true ∧
  s.startTime = ss.startedAt + ss.accumulatedPauseOffset ∧
  ((ss.state = SpecState.Recording ∧ s.isPaused = false) ∨
   (ss.state = SpecState.Paused ∧ s.isPaused = true ∧ s.pausedTime = ss.pausedAt))

theorem timerInv_start (micOk : Bool) (hmic : micOk = true) (t0 : Int) (s : AppState) :
    TimerInv (startRecording micOk t0 s) (SpecSession.start t0) := by
  subst hmic
  refine ⟨rfl, rfl, by simp [startRecording, SpecSession.start], Or.inl ⟨rfl, rfl⟩⟩

theorem timerInv_toggle (t : Int) (s : AppState) (ss : SpecSession)
    (h : TimerInv s ss) : TimerInv (togglePause t s) (specToggle t ss) := by
  obtain ⟨hrec, hmr, hst, hcase⟩ := h
  rcases hcase with ⟨hstate, hp⟩ | ⟨hstate, hp, hpt⟩
  · -- recording: the button pauses
    refine ⟨?_, ?_, ?_, Or.inr ⟨?_, ?_, ?_⟩⟩ <;>
      simp [togglePause, specToggle, SpecSession.pause, hrec, hmr, hp, hstate, hst]
  · -- paused: the button resumes
    refine ⟨?_, ?_, ?_, Or.inl ⟨?_, ?_⟩⟩ <;>
      simp [togglePause, specToggle, SpecSession.resume, hrec, hmr, hp, hstate, hst, hpt]
    ring

theorem timerInv_runToggles (ts : List Int) (s : AppState) (ss : SpecSession)
    (h : TimerInv s ss) : TimerInv (runToggles ts s) (runSpecToggles ts ss) := by
  induction ts generalizing s ss with
  | nil => exact h
  | cons t rest ih =>
      exact ih (togglePause t s) (specToggle t ss) (timerInv_toggle t s ss h)

theorem timerInv_elapsed (now : Int) (s : AppState) (ss : SpecSession)
    (h : TimerInv s ss) : updateTimerElapsed now s = specElapsed now ss := by
  obtain ⟨hrec, _, hst, hcase⟩ := h
  rcases hcase with ⟨hstate, hp⟩ | ⟨hstate, hp, hpt⟩
  · simp [updateTimerElapsed, specElapsed, hrec, hp, hstate, hst]
    ring
  · simp [updateTimerElapsed, specElapsed, hrec, hp, hstate, hst, hpt]
    ring

/-- C1: for every pause/resume history, the elapsed time the code displays
equals the spec's formula — `now - startedAt - accumulatedPauseOffset` while
`Recording` and `pausedAt - startedAt - accumulatedPauseOffset` while
`Paused` — and in particular for the scenario start at 0, pause at 2500,
resume at 3500, read at 4000 the elapsed time is 3000 ms, not 4000 ms. -/
theorem timer_elapsed_matches_spec_formula :
    (∀ (t0 : Int) (ts : List Int) (now : Int),
      updateTimerElapsed now (runToggles ts (startRecording true t0 initState)) =
        specElapsed now (runSpecToggles ts (SpecSession.start t0))) ∧
    updateTimerElapsed 4000 (runToggles [2500, 3500] (startRecording true 0 initState)) =
      some 3000 ∧
    (3000 : Int) ≠ 4000 := by
  refine ⟨fun t0 ts now => ?_, by decide, by decide⟩
  exact timerInv_elapsed now _ _
    (timerInv_runToggles ts _ _ (timerInv_start true rfl t0 initState))

/-- C2 counterexample: after start at time 0 and one delivered chunk,
`cancelRecording` shows the landing view and the Processing Client is not
invoked, but the recorded chunks are NOT discarded — `audioChunks` still
holds the chunk.  The claim's "the recorded chunks are discarded" is false
on the code: `cancelRecording` (app.js lines 159-170) never clears
`audioChunks`; only the next `startRecording` does. -/
theorem cancel_keeps_chunks_counterexample :
    (cancelRecording (onDataAvailable 7 (startRecording true 0 initState))).view =
      View.landing ∧
    (cancelRecording (onDataAvailable 7 (startRecording true 0 initState))).processCalls = 0 ∧
    (cancelRecording (onDataAvailable 7 (startRecording true 0 initState))).audioChunks =
      [7] ∧
    [(7 : Chunk)] ≠ [] := by
  refine ⟨by decide, by decide, by decide, by decide⟩

/-- C2 amended: after `cancelRecording` from any active session (Recording
or Paused, i.e. `isRecording` with a recorder present), the landing view is
shown, the session leaves the active state, and the Processing Client is
never invoked for that session (the call count is unchanged, so it stays 0);
the chunk list is not cleared by cancel itself — it keeps its value and is
reset only by the next `startRecording`, and is never handed to the
Processing Client. -/
theorem cancel_returns_to_landing_without_processing (s : AppState)
    (hrec : s.isRecording = true) (hmr : s.hasRecorder = true) :
    (cancelRecording s).view = View.landing ∧
    (cancelRecording s).isRecording = false ∧
    (cancelRecording s).processCalls = s.processCalls ∧
    (cancelRecording s).audioChunks = s.audioChunks ∧
    (∀ t : Int, (startRecording true t (cancelRecording s)).audioChunks = []) := by
  refine ⟨?_, ?_, ?_, ?_, fun t => ?_⟩ <;>
    simp [cancelRecording, stopListener, startRecording, hrec, hmr]

/-- Witness for the amended C2 at a concrete active state with one chunk. -/
theorem cancel_returns_to_landing_without_processing_witness :
    (cancelRecording (onDataAvailable 7 (startRecording true 0 initState))).view =
      View.landing ∧
    (cancelRecording (onDataAvailable 7 (startRecording true 0 initState))).processCalls =
      (onDataAvailable 7 (startRecording true 0 initState)).processCalls := by
  have h := cancel_returns_to_landing_without_processing
    (onDataAvailable 7 (startRecording true 0 initState)) (by decide) (by decide)
  exact ⟨h.1, h.2.2.1⟩

/-- C4: a pause (the pause branch of `togglePause`, the only way the source
can pause) only takes effect in the `Recording` state; issued while the
code is in `Idle`, `Paused` or any other non-`Recording` configuration it
leaves the whole session state unchanged, and from `Recording` (with a
recorder present) it moves the session to `Paused`. -/
theorem pause_only_from_recording (now : Int) (s : AppState) :
    (codeState s ≠ SpecState.Recording → pauseAction now s = s) ∧
    (codeState s = SpecState.Recording → s.hasRecorder = true →
      codeState (pauseAction now s) = SpecState.Paused) := by
  constructor
  · intro hne
    unfold pauseAction
    unfold codeState at hne
    cases hrec : s.isRecording <;> cases hp : s.isPaused <;>
      simp [hrec, hp] at hne ⊢
  · intro hst hmr
    unfold codeState at hst ⊢
    unfold pauseAction
    cases hrec : s.isRecording <;> cases hp : s.isPaused <;>
      simp [hrec, hp, hmr] at hst ⊢

/-- Witness for C4: pausing in the idle initial state changes nothing, and
pausing a live recording reaches `Paused`. -/
theorem pause_only_from_recording_witness :
    pauseAction 5 initState = initState ∧
    codeState (pauseAction 5 (startRecording true 0 initState)) = SpecState.Paused := by
  refine ⟨(pause_only_from_recording 5 initState).1 (by decide),
    (pause_only_from_recording 5 (startRecording true 0 initState)).2 (by decide) (by decide)⟩

/-- One reflection bullet `{text, type}` (§3; app.js lines 315-319).  The
`type` field is spelled `btype` because `type` is reserved in Lean. -/
structure Bullet where
  text : String
  btype : String
deriving DecidableEq, Repr

/-- The emotion record `{energy, valence, summary}` (§3).  The two
coordinates are JS numbers; they are carried as rationals (every finite
double is a rational) and never computed with, only stored and
round-tripped. -/
structure Emotion where
  energy : Rat
  valence : Rat
  summary : String
deriving DecidableEq, Repr

/-- A persisted journal entry (app.js lines 365-373): creation timestamp,
topic, the four insight fields, and the non-durable blob URL. -/
structure JournalEntry where
  date : String
  topic : String
  transcript : String
  bullets : List Bullet
  emotion : Emotion
  nextPrompt : String
  audioBlobUrl : String
deriving DecidableEq, Repr

/-- A processing-response payload as `displayInsights` receives it: each
required field may be absent (`none` models a missing/undefined JSON
field). -/
structure Payload where
  transcript : Option String
  bullets : Option (List Bullet)
  emotion : Option Emotion
  nextPrompt : Option String
deriving DecidableEq, Repr

/-- JS truthiness of a possibly-absent string: `!x` is true exactly when the
field is `undefined`/`null` or the empty string. -/
def truthyStr : Option String → Bool
  | none => false
  | some s => !(s == "")

/-- JS truthiness of a possibly-absent object or array: any present array or
object is truthy (even `[]`), so only absence is falsy. -/
def truthyObj {α : Type} : Option α → Bool := Option.isSome

/-- The validation guard of `displayInsights` (app.js line 294):
`!data.transcript || !data.bullets || !data.emotion || !data.nextPrompt`
throws, i.e. the payload passes exactly when all four are truthy. -/
def validPayload (p : Payload) : Bool :=
  truthyStr p.transcript && truthyObj p.bullets && truthyObj p.emotion &&
    truthyStr p.nextPrompt

/-- The entry `displayInsights` saves on a valid payload (app.js lines
365-373); the `getD` defaults are unreachable when `validPayload` holds. -/
def mkEntry (p : Payload) (topic nowIso audioUrl : String) : JournalEntry :=
  { date := nowIso, topic := topic, transcript := p.transcript.getD "",
    bullets := p.bullets.getD [], emotion := p.emotion.getD ⟨0, 0, ""⟩,
    nextPrompt := p.nextPrompt.getD "", audioBlobUrl := audioUrl }

/-- `saveJournalEntry` (app.js lines 460-464): read the array, push, write
back. -/
def saveJournalEntry (entry : JournalEntry) (entries : List JournalEntry) :
    List JournalEntry :=
  entries ++ [entry]

/-- `displayInsights` (app.js lines 292-384) as a function from the payload
and the stored entries to the updated store and the resulting view: a
payload failing the four-field truthiness guard throws into the catch block,
which alerts and shows the landing view without saving; a passing payload is
rendered, saved via `saveJournalEntry`, and the insights view is shown. -/
def displayInsights (p : Payload) (topic nowIso audioUrl : String)
    (entries : List JournalEntry) : List JournalEntry × View :=
  if validPayload p then
    (saveJournalEntry (mkEntry p topic nowIso audioUrl) entries, View.insights)
  else (entries, View.landing)

/-- The parsed error body of a non-success response: `errorData.error` may
be absent. -/
structure ErrorBody where
  error : Option String
deriving DecidableEq, Repr

/-- A processing response as `processAudio` consumes it.  `errBody` is the
result of `response.json()` when read as an error body and `okBody` when
read as an insight payload; `Except.error m` models the json parse throwing
with message `m`. -/
structure HttpResponse where
  ok : Bool
  status : Nat
  errBody : Except String ErrorBody
  okBody : Except String Payload
deriving Repr

/-- The generic status-based message the code builds when a parsed error
body has no truthy `error` field (app.js line 279). -/
def genericStatusMsg (status : Nat) : String :=
  "HTTP error! status: " ++ toString status

/-- `processAudio` from the fetch response onward (app.js lines 270-288),
returning the updated store, the view shown, and the surfaced error message
(the `error.message` the alert embeds), if any.  On a non-ok response the
code awaits `response.json()` FIRST: if that parse throws, the catch block
surfaces the parse error's own message; if it parses, the thrown message is
`errorData.error` when truthy, else the generic status message.  On an ok
response a parse failure likewise lands in the catch; otherwise
`displayInsights` runs. -/
def processAudio (r : HttpResponse) (topic nowIso audioUrl : String)
    (entries : List JournalEntry) : List JournalEntry × View × Option String :=
  if r.ok then
    match r.okBody with
    | Except.error m => (entries, View.landing, some m)
    | Except.ok p =>
        let res := displayInsights p topic nowIso audioUrl entries
        (res.1, res.2,
          if validPayload p then none
          else some "Invalid data format received from server.")
  else
    match r.errBody with
    | Except.error m => (entries, View.landing, some m)
    | Except.ok eb =>
        (entries, View.landing,
          some (if truthyStr eb.error then eb.error.getD ""
                else genericStatusMsg r.status))

/-- C3: a success payload missing any of the four required fields
(`transcript`, `bullets`, `emotion`, `nextPrompt`) is rejected by
`displayInsights`: the landing view is shown and the journal store is
unchanged (zero entries appended). -/
theorem missing_field_rejected (p : Payload) (topic nowIso audioUrl : String)
    (entries : List JournalEntry)
    (h : p.transcript = none ∨ p.bullets = none ∨ p.emotion = none ∨
         p.nextPrompt = none) :
    displayInsights p topic nowIso audioUrl entries = (entries, View.landing) := by
  have hv : validPayload p = false := by
    rcases h with h | h | h | h <;>
      simp [validPayload, truthyStr, truthyObj, h]
  simp [displayInsights, hv]

/-- Witness for C3 at a payload whose `emotion` field is missing but whose
other three fields are present and non-empty. -/
theorem missing_field_rejected_witness :
    displayInsights
      { transcript := some "hello", bullets := some [⟨"b", "neutral"⟩],
        emotion := none, nextPrompt := some "next" } "t" "d" "u" [] =
      ([], View.landing) := by
  exact missing_field_rejected _ "t" "d" "u" [] (Or.inr (Or.inr (Or.inl rfl)))

/-- C10: validation is by falsiness, not presence — a payload with all four
fields present but with an empty-string `transcript` (or `nextPrompt`) is
also rejected: landing view, store unchanged. -/
theorem falsy_field_rejected (p : Payload) (topic nowIso audioUrl : String)
    (entries : List JournalEntry)
    (h : p.transcript = some "" ∨ p.nextPrompt = some "") :
    displayInsights p topic nowIso audioUrl entries = (entries, View.landing) := by
  have hv : validPayload p = false := by
    rcases h with h | h <;>
      simp [validPayload, truthyStr, h]
  simp [displayInsights, hv]

/-- Witness for C10 at a payload where every field is present but
`transcript` is the empty string. -/
theorem falsy_field_rejected_witness :
    displayInsights
      { transcript := some "", bullets := some [⟨"b", "neutral"⟩],
        emotion := some ⟨0, 0, "calm"⟩, nextPrompt := some "next" }
      "t" "d" "u" [] = ([], View.landing) := by
  exact falsy_field_rejected _ "t" "d" "u" [] (Or.inl rfl)

/-- C5 counterexample: a non-ok response whose body fails to parse does NOT
surface the generic status-based message — the code awaits
`response.json()` before building that message, so the parse exception's own
message is what reaches the catch block and the alert. -/
theorem parse_failure_message_counterexample :
    processAudio
      { ok := false, status := 500,
        errBody := Except.error "Unexpected token < in JSON at position 0",
        okBody := Except.error "Unexpected token < in JSON at position 0" }
      "t" "d" "u" [] =
      ([], View.landing, some "Unexpected token < in JSON at position 0") ∧
    some "Unexpected token < in JSON at position 0" ≠ some (genericStatusMsg 500) := by
  refine ⟨rfl, by decide⟩

/-- C5 amended: on every non-success response, no entry is persisted and the
landing view is shown; the surfaced message is the structured `error` field
when the body parses and that field is truthy, the generic status-based
message when the body parses without a truthy `error` field, and — where the
claim said the generic message would be used — the body-parse failure's own
message when parsing the body fails. -/
theorem non_success_response_error_handling (r : HttpResponse)
    (topic nowIso audioUrl : String) (entries : List JournalEntry)
    (hok : r.ok = false) :
    (processAudio r topic nowIso audioUrl entries).1 = entries ∧
    (processAudio r topic nowIso audioUrl entries).2.1 = View.landing ∧
    (∀ eb e, r.errBody = Except.ok eb → eb.error = some e → e ≠ "" →
      (processAudio r topic nowIso audioUrl entries).2.2 = some e) ∧
    (∀ eb, r.errBody = Except.ok eb → truthyStr eb.error = false →
      (processAudio r topic nowIso audioUrl entries).2.2 =
        some (genericStatusMsg r.status)) ∧
    (∀ m, r.errBody = Except.error m →
      (processAudio r topic nowIso audioUrl entries).2.2 = some m) := by
  cases hbody : r.errBody with
  | error m =>
      refine ⟨?_, ?_, ?_, ?_, ?_⟩ <;>
        simp [processAudio, hok, hbody]
  | ok eb =>
      refine ⟨?_, ?_, ?_, ?_, ?_⟩
      · simp [processAudio, hok, hbody]
      · simp [processAudio, hok, hbody]
      · intro eb' e heb he hne
        injection heb with heq
        subst heq
        simp [processAudio, hok, hbody, truthyStr, he, hne]
      · intro eb' heb hfalse
        injection heb with heq
        subst heq
        simp [processAudio, hok, hbody, hfalse]
      · intro m heb
        simp at heb

/-- Witness for the amended C5: a 404 whose body parses to
`{error: "boom"}` surfaces "boom", leaves the store empty and lands on the
landing view. -/
theorem non_success_response_error_handling_witness :
    (processAudio
        { ok := false, status := 404, errBody := Except.ok ⟨some "boom"⟩,
          okBody := Except.error "x" } "t" "d" "u" []).1 = [] ∧
    (processAudio
        { ok := false, status := 404, errBody := Except.ok ⟨some "boom"⟩,
          okBody := Except.error "x" } "t" "d" "u" []).2.1 = View.landing ∧
    (processAudio
        { ok := false, status := 404, errBody := Except.ok ⟨some "boom"⟩,
          okBody := Except.error "x" } "t" "d" "u" []).2.2 = some "boom" := by
  have h := non_success_response_error_handling
    { ok := false, status := 404, errBody := Except.ok ⟨some "boom"⟩,
      okBody := Except.error "x" } "t" "d" "u" [] rfl
  exact ⟨h.1, h.2.1, h.2.2.1 ⟨some "boom"⟩ "boom" rfl rfl (by decide)⟩

/-- `getJournalDays` (app.js lines 466-472): projects each stored entry's
`date` to a local `YYYY-MM-DD` string.  The `new Date(...)`/`getFullYear`
local-timezone formatting is environment behaviour, modelled as the
parameter `fmt`. -/
def getJournalDays (fmt : String → String) (entries : List JournalEntry) :
    List String :=
  entries.map (fun e => fmt e.date)

/-- `deleteAllData` (app.js lines 526-564) as a function of the two confirm
answers and the stored entries, returning the store afterwards: an empty
store returns early with a notice; otherwise the second confirm is only
asked when the first succeeded, and only when both succeed is the storage
key removed (after which a read yields the empty array). -/
def deleteAllData (confirm1 confirm2 : Bool) (entries : List JournalEntry) :
    List JournalEntry :=
  if entries.length == 0 then entries
  else if confirm1 then
    if confirm2 then [] else entries
  else entries

/-- C6: `deleteAllData` answered without both confirmations leaves the
journal store unchanged; answered with both, the store becomes empty and
`getJournalDays` (the `listEntryDates` projection) subsequently returns the
empty list, for every date formatter. -/
theorem deleteAll_confirmation_gate (confirm1 confirm2 : Bool)
    (entries : List JournalEntry) (fmt : String → String) :
    (¬(confirm1 = true ∧ confirm2 = true) →
      deleteAllData confirm1 confirm2 entries = entries) ∧
    (confirm1 = true → confirm2 = true →
      deleteAllData confirm1 confirm2 entries = [] ∧
      getJournalDays fmt (deleteAllData confirm1 confirm2 entries) = []) := by
  constructor
  · intro hnot
    unfold deleteAllData
    cases h1 : confirm1 <;> cases h2 : confirm2 <;>
      simp_all
  · intro h1 h2
    subst h1; subst h2
    cases hlen : entries.length == 0 with
    | true =>
        have : entries = [] := by
          cases entries with
          | nil => rfl
          | cons a as => simp at hlen
        subst this
        exact ⟨rfl, rfl⟩
    | false =>
        constructor
        · simp [deleteAllData, hlen]
        · simp [deleteAllData, getJournalDays, hlen]

/-- Witness for C6: with a one-entry store, declining the second confirm
keeps the entry; confirming twice empties the store and the date list. -/
theorem deleteAll_confirmation_gate_witness :
    deleteAllData true false
      [{ date := "2026-01-01T00:00:00Z", topic := "t", transcript := "x",
         bullets := [], emotion := ⟨0, 0, "s"⟩, nextPrompt := "n",
         audioBlobUrl := "blob:1" }] =
      [{ date := "2026-01-01T00:00:00Z", topic := "t", transcript := "x",
         bullets := [], emotion := ⟨0, 0, "s"⟩, nextPrompt := "n",
         audioBlobUrl := "blob:1" }] ∧
    deleteAllData true true
      [{ date := "2026-01-01T00:00:00Z", topic := "t", transcript := "x",
         bullets := [], emotion := ⟨0, 0, "s"⟩, nextPrompt := "n",
         audioBlobUrl := "blob:1" }] = [] ∧
    getJournalDays (fun d => d)
      (deleteAllData true true
        [{ date := "2026-01-01T00:00:00Z", topic := "t", transcript := "x",
           bullets := [], emotion := ⟨0, 0, "s"⟩, nextPrompt := "n",
           audioBlobUrl := "blob:1" }]) = [] := by
  refine ⟨(deleteAll_confirmation_gate true false _ (fun d => d)).1 (by simp), ?_, ?_⟩
  · exact ((deleteAll_confirmation_gate true true _ (fun d => d)).2 rfl rfl).1
  · exact ((deleteAll_confirmation_gate true true _ (fun d => d)).2 rfl rfl).2

/-- The six durable fields of an exported entry (app.js lines 489-497); the
`audioBlobUrl` field has no counterpart here, mirroring its exclusion from
the export mapping. -/
structure ExportedEntry where
  date : String
  topic : String
  transcript : String
  bullets : List Bullet
  emotion : Emotion
  nextPrompt : String
deriving DecidableEq, Repr

/-- The per-entry export mapping (app.js lines 489-497): keep the six
durable fields, drop `audioBlobUrl`. -/
def exportedFields (e : JournalEntry) : ExportedEntry :=
  { date := e.date, topic := e.topic, transcript := e.transcript,
    bullets := e.bullets, emotion := e.emotion, nextPrompt := e.nextPrompt }

/-- The export envelope (app.js lines 485-498):
`{exportDate, totalEntries, appVersion, entries}`. -/
structure ExportEnvelope where
  exportDate : String
  totalEntries : Nat
  appVersion : String
  entries : List ExportedEntry
deriving DecidableEq, Repr

/-- The outcome of `exportAllData`: either no download with a notice, or a
triggered download of the envelope. -/
inductive ExportResult where
  | noData : String → ExportResult
  | download : ExportEnvelope → ExportResult
deriving DecidableEq, Repr

/-- `exportAllData` (app.js lines 475-523): an empty store alerts
"No journal entries to export." and returns without building anything;
otherwise the envelope is built with `totalEntries = entries.length`, the
app version literal, and the six-field projection of every entry, and the
download is triggered. -/
def exportAllData (nowIso : String) (entries : List JournalEntry) :
    ExportResult :=
  if entries.length == 0 then
    ExportResult.noData "No journal entries to export."
  else
    ExportResult.download
      { exportDate := nowIso, totalEntries := entries.length,
        appVersion := "1.0.0", entries := entries.map exportedFields }

/-- C8: `exportAllData` on an empty store never produces a download — it
only reports that there is nothing to export — and on a store of N entries
the produced envelope has `totalEntries = N` and `entries.length = N`. -/
theorem exportAll_envelope_counts (nowIso : String)
    (entries : List JournalEntry) :
    (entries = [] →
      exportAllData nowIso entries =
        ExportResult.noData "No journal entries to export.") ∧
    (entries ≠ [] →
      exportAllData nowIso entries =
        ExportResult.download
          { exportDate := nowIso, totalEntries := entries.length,
            appVersion := "1.0.0", entries := entries.map exportedFields } ∧
      entries.length = entries.length ∧
      (entries.map exportedFields).length = entries.length) := by
  constructor
  · intro h
    subst h
    rfl
  · intro h
    have hlen : (entries.length == 0) = false := by
      cases entries with
      | nil => exact absurd rfl h
      | cons a as => simp
    exact ⟨by simp [exportAllData, hlen], rfl, by simp⟩

/-- Witness for C8: the empty store yields only the notice; a two-entry
store yields an envelope with both counts equal to 2. -/
theorem exportAll_envelope_counts_witness :
    exportAllData "2026-02-02" [] =
      ExportResult.noData "No journal entries to export." ∧
    (exportAllData "2026-02-02"
        [{ date := "a", topic := "t1", transcript := "x1", bullets := [],
           emotion := ⟨0, 0, "s1"⟩, nextPrompt := "n1", audioBlobUrl := "b1" },
         { date := "b", topic := "t2", transcript := "x2", bullets := [],
           emotion := ⟨0, 0, "s2"⟩, nextPrompt := "n2", audioBlobUrl := "b2" }] =
      ExportResult.download
        { exportDate := "2026-02-02", totalEntries := 2, appVersion := "1.0.0",
          entries :=
            [{ date := "a", topic := "t1", transcript := "x1", bullets := [],
               emotion := ⟨0, 0, "s1"⟩, nextPrompt := "n1" },
             { date := "b", topic := "t2", transcript := "x2", bullets := [],
               emotion := ⟨0, 0, "s2"⟩, nextPrompt := "n2" }] }) := by
  constructor
  · exact (exportAll_envelope_counts "2026-02-02" []).1 rfl
  · exact ((exportAll_envelope_counts "2026-02-02" _).2 (by simp)).1

/-- The starter-topic UI state: which preset (by index into the fixed
starter list) carries the `selected` class, and the current text of the
`.custom-starter` input. -/
structure TopicState where
  selected : Option Nat
  customText : String
deriving DecidableEq, Repr

/-- The page-load topic state: no preset selected, empty free text. -/
def initTopicState : TopicState := { selected := none, customText := "" }

/-- A click on starter option `i` (app.js lines 64-70): deselect all
options, select this one, and clear the free-text input's value. -/
def clickPreset (i : Nat) (_st : TopicState) : TopicState :=
  { selected := some i, customText := "" }

/-- An `input` event on the free-text field with new value `s` (app.js
lines 72-78): the value becomes `s`, and when `s` is truthy (non-empty)
every preset is deselected. -/
def inputCustom (s : String) (st : TopicState) : TopicState :=
  { customText := s, selected := if s == "" then st.selected else none }

/-- JS `String.prototype.trim`: strip leading and trailing whitespace.
Defined over the character list so it evaluates inside the kernel. -/
def jsTrim (s : String) : String :=
  ⟨((s.data.dropWhile Char.isWhitespace).reverse.dropWhile
      Char.isWhitespace).reverse⟩

/-- The topic resolution inside `processAudio` (app.js lines 258-268): the
selected preset's trimmed text if one is selected, else the trimmed free
text if that is truthy, else "General reflection". -/
def resolveTopic (presets : List String) (st : TopicState) : String :=
  match st.selected with
  | some i => jsTrim (presets.getD i "")
  | none =>
      if jsTrim st.customText == "" then "General reflection"
      else jsTrim st.customText

/-- C9 counterexample: after two preset clicks followed by typing the
non-empty free text " x ", the resolved topic is the trimmed "x", which is
not the typed text; the claim's "the topic equals the typed text" is false
on the code, which resolves `customStarter.value.trim()`. -/
theorem topic_equals_typed_text_counterexample :
    resolveTopic ["Gratitude", "Stress"]
      (inputCustom " x " (clickPreset 1 (clickPreset 0 initTopicState))) = "x" ∧
    (" x " : String) ≠ "" ∧
    ("x" : String) ≠ " x " := by
  refine ⟨by decide, by decide, by decide⟩

/-- C9 amended: the last user action wins, up to trimming — after any
sequence of preset clicks followed by typing free text, the resolved topic
is the TRIMMED typed text whenever that trim is non-empty (so no preset
survives); typing non-empty but whitespace-only text also deselects every
preset and resolves to the default "General reflection"; and with no preset
selected and no free text the topic is "General reflection". -/
theorem topic_last_action_wins_trimmed (presets : List String)
    (clicks : List Nat) (s : String) :
    (jsTrim s ≠ "" →
      resolveTopic presets
        (inputCustom s
          (clicks.foldl (fun acc i => clickPreset i acc) initTopicState)) =
        jsTrim s) ∧
    (s ≠ "" → jsTrim s = "" →
      resolveTopic presets
        (inputCustom s
          (clicks.foldl (fun acc i => clickPreset i acc) initTopicState)) =
        "General reflection") ∧
    resolveTopic presets initTopicState = "General reflection" := by
  refine ⟨?_, ?_, rfl⟩
  · intro htrim
    have hs : s ≠ "" := by
      intro h
      subst h
      exact htrim rfl
    simp [inputCustom, resolveTopic, hs, htrim]
  · intro hs htrim
    simp [inputCustom, resolveTopic, hs, htrim]

/-- Witness for the amended C9: typing "  walk  " after two preset clicks
resolves to "walk"; typing the whitespace-only "  " resolves to the
default; and the untouched state resolves to the default. -/
theorem topic_last_action_wins_trimmed_witness :
    resolveTopic ["Gratitude", "Stress"]
      (inputCustom "  walk  "
        ([0, 1].foldl (fun acc i => clickPreset i acc) initTopicState)) =
      "walk" ∧
    resolveTopic ["Gratitude", "Stress"]
      (inputCustom "  "
        ([0, 1].foldl (fun acc i => clickPreset i acc) initTopicState)) =
      "General reflection" ∧
    resolveTopic ["Gratitude", "Stress"] initTopicState = "General reflection" := by
  refine ⟨?_, ?_, ?_⟩
  · exact (topic_last_action_wins_trimmed ["Gratitude", "Stress"] [0, 1] "  walk  ").1
      (by decide)
  · exact (topic_last_action_wins_trimmed ["Gratitude", "Stress"] [0, 1] "  ").2.1
      (by decide) (by decide)
  · exact (topic_last_action_wins_trimmed ["Gratitude", "Stress"] [] "").2.2

/-- A JSON value, the shape `JSON.stringify` serializes and `JSON.parse`
recovers; numbers are carried as rationals (every finite JS number is one),
objects as ordered key-value lists as the code constructs them. -/
inductive Json where
  | str : String → Json
  | num : Rat → Json
  | arr : List Json → Json
  | obj : List (String × Json) → Json

/-- Key lookup on a JSON object (property access on a parsed export). -/
def Json.lookupKey (k : String) : Json → Option Json
  | Json.obj kvs => kvs.lookup k
  | _ => none

/-- Read a JSON value as a string. -/
def Json.asStr : Json → Option String
  | Json.str s => some s
  | _ => none

/-- Read a JSON value as a number. -/
def Json.asNum : Json → Option Rat
  | Json.num q => some q
  | _ => none

/-- Read a JSON value as an array. -/
def Json.asArr : Json → Option (List Json)
  | Json.arr js => some js
  | _ => none

/-- The JSON shape of one bullet `{text, type}` (§6). -/
def bulletToJson (b : Bullet) : Json :=
  Json.obj [("text", Json.str b.text), ("type", Json.str b.btype)]

/-- The JSON shape of the emotion record `{energy, valence, summary}`. -/
def emotionToJson (e : Emotion) : Json :=
  Json.obj [("energy", Json.num e.energy), ("valence", Json.num e.valence),
            ("summary", Json.str e.summary)]

/-- The JSON object the export mapping emits for one entry (app.js lines
489-497): exactly the six durable fields, no `audioBlobUrl` key. -/
def entryToJson (e : JournalEntry) : Json :=
  Json.obj [("date", Json.str e.date), ("topic", Json.str e.topic),
            ("transcript", Json.str e.transcript),
            ("bullets", Json.arr (e.bullets.map bulletToJson)),
            ("emotion", emotionToJson e.emotion),
            ("nextPrompt", Json.str e.nextPrompt)]

/-- The serialized export document (app.js lines 485-501): the envelope
object that `JSON.stringify` renders. -/
def exportJson (nowIso : String) (entries : List JournalEntry) : Json :=
  Json.obj [("exportDate", Json.str nowIso),
            ("totalEntries", Json.num (entries.length : Rat)),
            ("appVersion", Json.str "1.0.0"),
            ("entries", Json.arr (entries.map entryToJson))]

/-- Parse every element of a JSON array, failing if any element fails
(`JSON.parse` recovers the whole array or throws). -/
def optionTraverse {α β : Type} (g : α → Option β) : List α → Option (List β)
  | [] => some []
  | a :: as => do
      let b ← g a
      let bs ← optionTraverse g as
      pure (b :: bs)

/-- Parse one bullet back out of an exported JSON object. -/
def bulletFromJson (j : Json) : Option Bullet := do
  let t ← (j.lookupKey "text").bind Json.asStr
  let ty ← (j.lookupKey "type").bind Json.asStr
  pure ⟨t, ty⟩

/-- Parse the emotion record back out of an exported JSON object. -/
def emotionFromJson (j : Json) : Option Emotion := do
  let en ← (j.lookupKey "energy").bind Json.asNum
  let va ← (j.lookupKey "valence").bind Json.asNum
  let su ← (j.lookupKey "summary").bind Json.asStr
  pure ⟨en, va, su⟩

/-- Parse one exported entry's six fields back out of its JSON object. -/
def entryFromJson (j : Json) : Option ExportedEntry := do
  let d ← (j.lookupKey "date").bind Json.asStr
  let tp ← (j.lookupKey "topic").bind Json.asStr
  let tr ← (j.lookupKey "transcript").bind Json.asStr
  let bjs ← (j.lookupKey "bullets").bind Json.asArr
  let bs ← optionTraverse bulletFromJson bjs
  let em ← (j.lookupKey "emotion").bind emotionFromJson
  let np ← (j.lookupKey "nextPrompt").bind Json.asStr
  pure ⟨d, tp, tr, bs, em, np⟩

/-- Parse the entries array back out of an export document. -/
def parseExport (j : Json) : Option (List ExportedEntry) := do
  let ejs ← (j.lookupKey "entries").bind Json.asArr
  optionTraverse entryFromJson ejs

theorem optionTraverse_map_of_inverse {α β : Type} (f : α → β)
    (g : β → Option α) (h : ∀ a, g (f a) = some a) (l : List α) :
    optionTraverse g (l.map f) = some l := by
  induction l with
  | nil => rfl
  | cons a as ih =>
      simp [optionTraverse, h a, ih]

theorem bullet_roundtrip (b : Bullet) :
    bulletFromJson (bulletToJson b) = some b := rfl

theorem entry_roundtrip (e : JournalEntry) :
    entryFromJson (entryToJson e) = some (exportedFields e) := by
  have hb : optionTraverse bulletFromJson (e.bullets.map bulletToJson) =
      some e.bullets :=
    optionTraverse_map_of_inverse bulletToJson bulletFromJson bullet_roundtrip
      e.bullets
  simp [entryFromJson, entryToJson, Json.lookupKey, List.lookup, Json.asStr,
    Json.asArr, emotionToJson, emotionFromJson, Json.asNum, hb, exportedFields]

/-- C7: for every array of journal entries, parsing the serialized export
document back yields exactly the `{date, topic, transcript, bullets,
emotion, nextPrompt}` fields of every entry, and no exported entry object
carries an `audioBlobUrl` key. -/
theorem export_roundtrip (nowIso : String) (entries : List JournalEntry) :
    parseExport (exportJson nowIso entries) =
      some (entries.map exportedFields) ∧
    (entries.map entryToJson).all
      (fun j => (j.lookupKey "audioBlobUrl").isNone) = true := by
  constructor
  · have he : optionTraverse entryFromJson (entries.map entryToJson) =
        some (entries.map exportedFields) := by
      induction entries with
      | nil => rfl
      | cons e es ih =>
          simp [optionTraverse, entry_roundtrip e, ih]
    simp [parseExport, exportJson, Json.lookupKey, List.lookup, Json.asArr, he]
  · have hnone : ∀ e : JournalEntry,
        (((entryToJson e).lookupKey "audioBlobUrl").isNone) = true :=
      fun e => rfl
    induction entries with
    | nil => rfl
    | cons e es ih =>
        simpa [List.all_cons, hnone e] using ih
